import Mathlib

/-!
A shallow embedding of the `MemoryDatastore` class (an in-memory `Datastore`
backend) and proofs about its operations.

The store keeps two process-local mappings backed by plain JavaScript objects:
`docMetas` (fingerprint → document-metadata payload) and `files`
(file-ref key → buffer + metadata).  JavaScript objects used as string-keyed
dictionaries are embedded as association lists kept in key-insertion order.
-/

/-- A JavaScript runtime value, as can arrive in the `data` argument of
`write`.  The precondition check in `write` distinguishes strings from every
other value. -/
inductive JsValue where
  | str (s : String)
  | num (n : Int)
  | boolean (b : Bool)
  | undefined
deriving DecidableEq, Repr

/-- `typeof v === "string"` for an embedded JavaScript value. -/
def JsValue.isString : JsValue → Bool
  | .str _ => true
  | _ => false

/-- JavaScript string coercion of a `string | undefined` value, as performed by
template literals and by the string `+` operator: `undefined` renders as the
text `undefined`. -/
def jsStr : Option String → String
  | some s => s
  | none => "undefined"

/-- Modelled from the spec: `Backend.ts` is not under `src/`.  The spec
describes `Backend` as "an enum of storage areas", naming the stash, files and
logs areas; a TypeScript string-enum member interpolates as its string value. -/
inductive Backend where
  | stash
  | files
  | logs
deriving DecidableEq, Repr

/-- The string value a `Backend` member interpolates to. -/
def Backend.toStr : Backend → String
  | .stash => "stash"
  | .files => "files"
  | .logs => "logs"

/-- A reference to a stored file.  The TypeScript declaration gives
`name : string`, but at runtime a malformed ref can carry `undefined` in that
field, so it is embedded as `Option String` (`none` standing for
`undefined`). -/
structure FileRef where
  name : Option String
deriving DecidableEq, Repr

/-- A reference to a document-metadata record plus its optional data file. -/
structure DocMetaFileRef where
  fingerprint : String
  docFile : Option FileRef
deriving DecidableEq, Repr

/-- A lightweight reference to a document-metadata record. -/
structure DocMetaRef where
  fingerprint : String
deriving DecidableEq, Repr

/-- The document info passed alongside a `write`; the memory backend accepts
it but never reads it. -/
structure DocInfo where
  fingerprint : String
deriving DecidableEq, Repr

/-- Caller-supplied file metadata: an open string-keyed map of strings. -/
abbrev FileMeta := List (String × String)

/-- A Node `Buffer`.  `Buffer.from` on a string is kept symbolic as the
`fromString` constructor (UTF-8 encoding is injective, so equality of the
symbolic form matches equality of the encoded bytes). -/
inductive JsBuffer where
  | fromString (s : String)
  | raw (bytes : List Nat)
deriving DecidableEq, Repr

/-- The `data` argument of `writeFile`: `FileHandle | Buffer | string`.
`Files.readFileAsync` (a utility not under `src/`) reads the handle's file
from disk; the `handle` constructor carries the bytes that read yields. -/
inductive FileWriteData where
  | str (s : String)
  | buffer (b : JsBuffer)
  | handle (path : String) (contents : JsBuffer)
deriving DecidableEq, Repr

/-- Normalization of `writeFile` input to a buffer, following the three
branches of the source: a string goes through `Buffer.from`, a buffer passes
through, and a file handle is read from disk. -/
def FileWriteData.toBuffer : FileWriteData → JsBuffer
  | .str s => .fromString s
  | .buffer b => b
  | .handle _ contents => contents

/-- One entry of the in-memory `files` mapping. -/
structure FileData where
  buffer : JsBuffer
  meta : FileMeta
deriving DecidableEq, Repr

/-- The descriptor returned by `writeFile` and `getFile`. -/
structure DatastoreFile where
  backend : Backend
  ref : FileRef
  url : String
  meta : FileMeta
deriving DecidableEq, Repr

/-- A per-target entry of a `DeleteResult`: the synthesized path and whether
the target was reported deleted. -/
structure FileDeleted where
  path : String
  deleted : Bool
deriving DecidableEq, Repr

/-- The result of `delete`: one entry for the metadata file and one for the
associated data file. -/
structure DeleteResult where
  docMetaFile : FileDeleted
  dataFile : FileDeleted
deriving DecidableEq, Repr

/-- Errors surfaced synchronously by the embedded operations.
`typeMismatch` is modelled from the spec (`Preconditions.assertTypeOf` is not
under `src/`): a payload failing a required-type check raises
`TypeMismatchError` before any mutation.  `jsTypeError` is the JavaScript
`TypeError` thrown by reading a property of `undefined`. -/
inductive DsError where
  | typeMismatch
  | jsTypeError
deriving DecidableEq, Repr

/-- Modelled from the spec: `DatastoreMutation.ts` is not under `src/`.  A
mutation exposes two one-shot futures, `written` and `committed`; a call's
effect on them is recorded as the ordered trace of the `resolve` events it
issues. -/
inductive MutEvent where
  | written (value : Bool)
  | committed (value : Bool)
deriving DecidableEq, Repr

/-- The value carried by a resolution of the `written` future, if this event
is one. -/
def MutEvent.writtenValue : MutEvent → Option Bool
  | .written v => some v
  | .committed _ => none

/-- The value carried by a resolution of the `committed` future, if this event
is one. -/
def MutEvent.committedValue : MutEvent → Option Bool
  | .written _ => none
  | .committed v => some v

/-- `obj[k]` on a JavaScript object used as a string-keyed dictionary:
the stored value, or `undefined` (`none`) when the key is absent. -/
def objLookup {α : Type} (m : List (String × α)) (k : String) : Option α :=
  (m.find? (fun p => p.1 = k)).map (fun p => p.2)

/-- `k in obj`: key-membership test. -/
def objHasKey {α : Type} (m : List (String × α)) (k : String) : Bool :=
  m.any (fun p => p.1 = k)

/-- `obj[k] = v`: replaces the value in place when `k` is already present,
otherwise appends the new key (JavaScript objects keep string keys in
insertion order). -/
def objInsert {α : Type} (m : List (String × α)) (k : String) (v : α) :
    List (String × α) :=
  if objHasKey m k then
    m.map (fun p => if p.1 = k then (k, v) else p)
  else
    m ++ [(k, v)]

/-- `delete obj[k]`. -/
def objDelete {α : Type} (m : List (String × α)) (k : String) :
    List (String × α) :=
  m.filter (fun p => p.1 ≠ k)

namespace MemoryDatastore

/-- The mutable state of a `MemoryDatastore` instance: the `docMetas` mapping
(fingerprint → payload) and the `files` mapping (file-ref key → file data). -/
structure State where
  docMetas : List (String × String)
  files : List (String × FileData)
deriving DecidableEq, Repr

/-- A freshly constructed `MemoryDatastore`: both mappings empty. -/
def initialState : State := { docMetas := [], files := [] }

/-- `contains(fingerprint)`: `fingerprint in this.docMetas`. -/
def contains (s : State) (fingerprint : String) : Bool :=
  objHasKey s.docMetas fingerprint

/-- `getDocMeta(fingerprint)`: `this.docMetas[fingerprint]`, `undefined`
(`none`) when the fingerprint is unknown. -/
def getDocMeta (s : State) (fingerprint : String) : Option String :=
  objLookup s.docMetas fingerprint

/-- `getDocMetaFiles()`: every known fingerprint as a lightweight ref. -/
def getDocMetaFiles (s : State) : List DocMetaRef :=
  s.docMetas.map (fun p => { fingerprint := p.1 })

/-- `write(fingerprint, data, docInfo, datastoreMutation)`: asserts that
`data` is a string (otherwise `TypeMismatchError`, before any mutation), then
stores it under `fingerprint` and resolves the mutation's `written` and
`committed` futures to `true`, in that order.  The returned event list is the
trace of future resolutions the call issued. -/
def write (s : State) (fingerprint : String) (data : JsValue)
    (docInfo : DocInfo) : Except DsError (State × List MutEvent) :=
  match data with
  | .str d =>
      .ok ({ s with docMetas := objInsert s.docMetas fingerprint d },
           [.written true, .committed true])
  | _ => .error .typeMismatch

/-- The datastore state observed after a `write` call returns or throws: the
type check precedes every mutation, so a failed call leaves the state
intact. -/
def writeState (s : State) (fingerprint : String) (data : JsValue)
    (docInfo : DocInfo) : State :=
  match write s fingerprint data docInfo with
  | .ok (s', _) => s'
  | .error _ => s

/-- The mutation-future resolutions issued by a `write` call (none when the
call throws before reaching them). -/
def writeEvents (s : State) (fingerprint : String) (data : JsValue)
    (docInfo : DocInfo) : List MutEvent :=
  match write s fingerprint data docInfo with
  | .ok (_, evs) => evs
  | .error _ => []

/-- `delete(docMetaFileRef)`: builds the per-target result (paths synthesized
as `/<fingerprint>.json` and `'/' + docFile.name`, with `undefined` coerced to
text), marks both targets deleted when `contains` holds, and returns.  The
method never mutates either mapping, so the state component it returns is the
input state. -/
def delete (s : State) (docMetaFileRef : DocMetaFileRef) :
    DeleteResult × State :=
  let result : DeleteResult :=
    { docMetaFile :=
        { path := "/" ++ docMetaFileRef.fingerprint ++ ".json"
          deleted := false }
      dataFile :=
        { path :=
            "/" ++ jsStr (docMetaFileRef.docFile.map (fun current => jsStr current.name))
          deleted := false } }
  let result :=
    if contains s docMetaFileRef.fingerprint then
      { result with
          docMetaFile := { result.docMetaFile with deleted := true }
          dataFile := { result.dataFile with deleted := true } }
    else
      result
  (result, s)

/-- The file key: the template literal joining backend and ref name with a
colon. -/
def toFileRefKey (backend : Backend) (fileRef : FileRef) : String :=
  Backend.toStr backend ++ ":" ++ jsStr fileRef.name

/-- `writeFile(backend, ref, data, meta)`: normalizes `data` to a buffer,
stores it with `meta` under the file key, and returns the descriptor. -/
def writeFile (s : State) (backend : Backend) (ref : FileRef)
    (data : FileWriteData) (meta : FileMeta) : State × DatastoreFile :=
  let key := toFileRefKey backend ref
  let buff := data.toBuffer
  ({ s with files := objInsert s.files key { buffer := buff, meta := meta } },
   { backend := backend, ref := ref, url := "FIXME:none", meta := meta })

/-- `getFile(backend, ref)`: derives the key; a falsy key (the only falsy
string is the empty one) yields an empty optional; otherwise the code reads
`this.files[key]` and dereferences `.meta` on it, which throws a JavaScript
`TypeError` when the key was never written. -/
def getFile (s : State) (backend : Backend) (ref : FileRef) :
    Except DsError (Option DatastoreFile) :=
  let key := toFileRefKey backend ref
  if key = "" then
    .ok none
  else
    match objLookup s.files key with
    | none => .error .jsTypeError
    | some fileData =>
        .ok (some { backend := backend, ref := ref, url := "FIXME:none",
                    meta := fileData.meta })

/-- `containsFile(backend, ref)`: presence of the file key. -/
def containsFile (s : State) (backend : Backend) (ref : FileRef) : Bool :=
  (objLookup s.files (toFileRefKey backend ref)).isSome

/-- `deleteFile(backend, ref)`: removes the file key. -/
def deleteFile (s : State) (backend : Backend) (ref : FileRef) : State :=
  { s with files := objDelete s.files (toFileRefKey backend ref) }

end MemoryDatastore

/-! ### Association-list and string lemmas -/

theorem string_data_eq {s t : String} (h : s.data = t.data) : s = t := by
  cases s
  cases t
  exact congrArg String.mk h

theorem string_append_left_cancel {a b c : String} (h : a ++ b = a ++ c) :
    b = c := by
  have hd := congrArg String.data h
  rw [String.data_append, String.data_append] at hd
  exact string_data_eq (List.append_cancel_left hd)

theorem string_append_right_cancel {a b c : String} (h : a ++ c = b ++ c) :
    a = b := by
  have hd := congrArg String.data h
  rw [String.data_append, String.data_append] at hd
  exact string_data_eq (List.append_cancel_right hd)

theorem find?_map_update_ne {α : Type} {k k' : String} (v : α) (hne : k' ≠ k) :
    ∀ t : List (String × α),
      List.find? (fun p => p.1 = k')
          (t.map (fun p => if p.1 = k then (k, v) else p))
        = List.find? (fun p => p.1 = k') t := by
  intro t
  induction t with
  | nil => rfl
  | cons a t ih =>
    rw [List.map_cons]
    by_cases ha : a.1 = k
    · rw [if_pos ha]
      rw [List.find?_cons_of_neg _ (by simp [Ne.symm hne]),
          List.find?_cons_of_neg _ (by simp [ha, Ne.symm hne])]
      exact ih
    · rw [if_neg ha]
      by_cases ha' : a.1 = k'
      · rw [List.find?_cons_of_pos _ (by simp [ha']),
            List.find?_cons_of_pos _ (by simp [ha'])]
      · rw [List.find?_cons_of_neg _ (by simp [ha']),
            List.find?_cons_of_neg _ (by simp [ha'])]
        exact ih

theorem objLookup_map_update {α : Type} {k k' : String} (v : α) :
    ∀ m : List (String × α), objHasKey m k = true →
      objLookup (m.map (fun p => if p.1 = k then (k, v) else p)) k'
        = if k' = k then some v else objLookup m k' := by
  intro m
  induction m with
  | nil => intro h; simp [objHasKey] at h
  | cons a t ih =>
    intro h
    rw [List.map_cons]
    by_cases ha : a.1 = k
    · rw [if_pos ha]
      by_cases hk' : k' = k
      · subst hk'
        rw [if_pos rfl]
        unfold objLookup
        rw [List.find?_cons_of_pos _ (by simp)]
        rfl
      · rw [if_neg hk']
        unfold objLookup
        rw [List.find?_cons_of_neg _ (by simp [Ne.symm hk']),
            List.find?_cons_of_neg _ (by simp [ha, Ne.symm hk'])]
        have hrest := find?_map_update_ne v hk' t
        rw [hrest]
    · rw [if_neg ha]
      have ht : objHasKey t k = true := by
        simp only [objHasKey, List.any_cons, Bool.or_eq_true,
          decide_eq_true_eq] at h
        exact h.resolve_left ha
      by_cases ha' : a.1 = k'
      · have hk' : ¬ k' = k := fun hkk => ha (ha'.trans hkk)
        rw [if_neg hk']
        unfold objLookup
        rw [List.find?_cons_of_pos _ (by simp [ha']),
            List.find?_cons_of_pos _ (by simp [ha'])]
      · unfold objLookup
        rw [List.find?_cons_of_neg _ (by simp [ha']),
            List.find?_cons_of_neg _ (by simp [ha'])]
        have hrec := ih ht
        unfold objLookup at hrec
        exact hrec

theorem objLookup_append_single {α : Type} {k k' : String} (v : α) :
    ∀ m : List (String × α), objHasKey m k = false →
      objLookup (m ++ [(k, v)]) k'
        = if k' = k then some v else objLookup m k' := by
  intro m
  induction m with
  | nil =>
    intro _
    by_cases hk' : k' = k
    · subst hk'
      rw [if_pos rfl]
      unfold objLookup
      rw [List.nil_append, List.find?_cons_of_pos _ (by simp)]
      rfl
    · rw [if_neg hk']
      unfold objLookup
      rw [List.nil_append, List.find?_cons_of_neg _ (by simp [Ne.symm hk'])]
  | cons a t ih =>
    intro h
    simp only [objHasKey, List.any_cons, Bool.or_eq_false_iff,
      decide_eq_false_iff_not] at h
    have h2 : objHasKey t k = false := h.2
    rw [List.cons_append]
    by_cases ha' : a.1 = k'
    · have hk' : ¬ k' = k := fun hkk => h.1 (ha'.trans hkk)
      rw [if_neg hk']
      unfold objLookup
      rw [List.find?_cons_of_pos _ (by simp [ha']),
          List.find?_cons_of_pos _ (by simp [ha'])]
    · unfold objLookup
      rw [List.find?_cons_of_neg _ (by simp [ha']),
          List.find?_cons_of_neg _ (by simp [ha'])]
      have hrec := ih h2
      unfold objLookup at hrec
      exact hrec

theorem objLookup_objInsert {α : Type} (m : List (String × α))
    (k k' : String) (v : α) :
    objLookup (objInsert m k v) k'
      = if k' = k then some v else objLookup m k' := by
  unfold objInsert
  by_cases hk : objHasKey m k
  · rw [if_pos hk]
    exact objLookup_map_update v m hk
  · rw [if_neg hk]
    exact objLookup_append_single v m (by simpa using hk)

theorem objHasKey_eq_isSome {α : Type} (m : List (String × α)) (k : String) :
    objHasKey m k = (objLookup m k).isSome := by
  induction m with
  | nil => rfl
  | cons a t ih =>
    by_cases ha : a.1 = k
    · unfold objHasKey objLookup
      rw [List.find?_cons_of_pos _ (by simp [ha])]
      simp [List.any_cons, ha]
    · unfold objHasKey objLookup
      rw [List.find?_cons_of_neg _ (by simp [ha]), List.any_cons]
      have hb : (decide (a.1 = k)) = false := by simp [ha]
      rw [hb, Bool.false_or]
      unfold objHasKey objLookup at ih
      exact ih

namespace MemoryDatastore

theorem getDocMeta_writeState (s : State) (f k d : String) (di : DocInfo) :
    getDocMeta (writeState s f (.str d) di) k
      = if k = f then some d else getDocMeta s k := by
  show objLookup (objInsert s.docMetas f d) k = _
  exact objLookup_objInsert s.docMetas f k d

theorem contains_writeState (s : State) (f k d : String) (di : DocInfo) :
    contains (writeState s f (.str d) di) k
      = if k = f then true else contains s k := by
  show objHasKey (objInsert s.docMetas f d) k = _
  rw [objHasKey_eq_isSome, objLookup_objInsert]
  by_cases hk : k = f <;> simp [hk, contains, objHasKey_eq_isSome]

theorem writeFile_files (s : State) (b : Backend) (r : FileRef)
    (d : FileWriteData) (m : FileMeta) :
    ((writeFile s b r d m).1).files
      = objInsert s.files (toFileRefKey b r)
          { buffer := d.toBuffer, meta := m } := rfl

theorem backend_toStr_injective {A B : Backend}
    (h : Backend.toStr A = Backend.toStr B) : A = B := by
  cases A <;> cases B <;> first | rfl | exact absurd h (by decide)

theorem toFileRefKey_ne_empty (b : Backend) (r : FileRef) :
    toFileRefKey b r ≠ "" := by
  intro h
  unfold toFileRefKey at h
  have hd := congrArg String.data h
  rw [String.data_append] at hd
  have hnil : ((Backend.toStr b).data ++ (":" : String).data)
        ++ (jsStr r.name).data
      = ([] : List Char) := hd
  have h1 := (List.append_eq_nil.mp (List.append_eq_nil.mp hnil).1).1
  cases b <;> exact absurd h1 (by decide)

theorem toFileRefKey_backend_ne {A B : Backend} (r : FileRef) (h : A ≠ B) :
    toFileRefKey A r ≠ toFileRefKey B r := by
  intro he
  apply h
  apply backend_toStr_injective
  unfold toFileRefKey at he
  exact string_append_right_cancel (string_append_right_cancel he)

theorem toFileRefKey_name_inj (b : Backend) (x y : String) :
    toFileRefKey b ⟨some x⟩ = toFileRefKey b ⟨some y⟩ ↔ x = y := by
  constructor
  · intro h
    unfold toFileRefKey at h
    have h2 := string_append_left_cancel h
    simpa [jsStr] using h2
  · intro h
    rw [h]

theorem getFile_eq (s : State) (b : Backend) (r : FileRef) :
    getFile s b r
      = match objLookup s.files (toFileRefKey b r) with
        | none => .error .jsTypeError
        | some fileData =>
            .ok (some { backend := b, ref := r, url := "FIXME:none",
                        meta := fileData.meta }) := by
  simp only [getFile]
  rw [if_neg (toFileRefKey_ne_empty b r)]

end MemoryDatastore

namespace MemoryDatastore

/-- C1: for every fingerprint `f` and string payload `d`, `write(f, d, …)`
followed by `getDocMeta(f)` returns exactly `d`, and on repeated writes to the
same fingerprint the payload most recently written wins. -/
theorem write_getDocMeta_roundtrip (s : State) (f d da db : String)
    (di : DocInfo) :
    getDocMeta (writeState s f (.str d) di) f = some d ∧
    getDocMeta (writeState (writeState s f (.str da) di) f (.str db) di) f
      = some db := by
  constructor
  · rw [getDocMeta_writeState, if_pos rfl]
  · rw [getDocMeta_writeState, if_pos rfl]

/-- C2: the code violates the claim's delete clause.  `contains` is `false`
before any write and `true` right after one, but after a successful `delete`
(which even reports `deleted = true`) `contains` still answers `true`, where
the claim requires `false`: `delete` never removes the entry from
`docMetas`. -/
theorem contains_after_delete_eval :
    contains initialState "doc1" = false ∧
    contains (writeState initialState "doc1" (.str "data") ⟨"doc1"⟩) "doc1"
      = true ∧
    (delete (writeState initialState "doc1" (.str "data") ⟨"doc1"⟩)
        ⟨"doc1", none⟩).1.docMetaFile.deleted = true ∧
    contains (delete (writeState initialState "doc1" (.str "data") ⟨"doc1"⟩)
        ⟨"doc1", none⟩).2 "doc1" = true :=
  ⟨rfl, rfl, rfl, rfl⟩

/-- C3: a successful `write` resolves the mutation's `written` future no later
than its `committed` future, both to `true`, and each future exactly once: the
call's resolution trace is precisely `written := true` then
`committed := true`. -/
theorem write_mutation_ordering (s : State) (f d : String) (di : DocInfo) :
    write s f (.str d) di
      = .ok ({ s with docMetas := objInsert s.docMetas f d },
             [.written true, .committed true]) ∧
    (writeEvents s f (.str d) di).filterMap MutEvent.writtenValue = [true] ∧
    (writeEvents s f (.str d) di).filterMap MutEvent.committedValue
      = [true] ∧
    ∃ i j : Nat, i ≤ j ∧
      (writeEvents s f (.str d) di)[i]? = some (.written true) ∧
      (writeEvents s f (.str d) di)[j]? = some (.committed true) :=
  ⟨rfl, rfl, rfl, 0, 1, Nat.zero_le 1, rfl, rfl⟩

/-- C4: writing a non-string payload fails with `TypeMismatchError` before any
store mutation happens: the document-metadata mapping is unchanged, every
fingerprint reads back and tests exactly as before the call, and no mutation
future is resolved. -/
theorem write_non_string_fails (s : State) (f : String) (v : JsValue)
    (di : DocInfo) (h : v.isString = false) :
    write s f v di = .error .typeMismatch ∧
    writeState s f v di = s ∧
    writeEvents s f v di = [] ∧
    ∀ k, getDocMeta (writeState s f v di) k = getDocMeta s k ∧
      contains (writeState s f v di) k = contains s k := by
  cases v with
  | str d => simp [JsValue.isString] at h
  | num n => exact ⟨rfl, rfl, rfl, fun k => ⟨rfl, rfl⟩⟩
  | boolean b => exact ⟨rfl, rfl, rfl, fun k => ⟨rfl, rfl⟩⟩
  | undefined => exact ⟨rfl, rfl, rfl, fun k => ⟨rfl, rfl⟩⟩

/-- C4 witness: the theorem instantiated at the numeric payload `42`. -/
theorem write_non_string_fails_witness :
    JsValue.isString (.num 42) = false ∧
    write initialState "doc2" (.num 42) ⟨"doc2"⟩ = .error .typeMismatch :=
  ⟨rfl, (write_non_string_fails initialState "doc2" (.num 42) ⟨"doc2"⟩ rfl).1⟩

/-- C5: the `getDocMeta` half of the claim holds (an unknown fingerprint gives
the absent value, no error), but `getFile` on a never-written key violates it:
the code dereferences `.meta` on the missing `files` entry and throws a
JavaScript `TypeError` instead of returning an empty result. -/
theorem getFile_unknown_throws_eval :
    getDocMeta initialState "nope" = none ∧
    getFile initialState .stash ⟨some "x"⟩ = .error .jsTypeError :=
  ⟨rfl, rfl⟩

/-- C6: `delete` reports `deleted = contains(fingerprint)` for both targets —
`false` for both when the fingerprint was never written (in particular on the
fresh store), `true` for both once the fingerprint has been written — and the
docMetaFile path in the result is the string `"/" ++ fingerprint ++
".json"`. -/
theorem delete_result_spec (s : State) (ref : DocMetaFileRef) (d : String)
    (di : DocInfo) :
    (delete s ref).1.docMetaFile.path = "/" ++ ref.fingerprint ++ ".json" ∧
    (delete s ref).1.docMetaFile.deleted = contains s ref.fingerprint ∧
    (delete s ref).1.dataFile.deleted = contains s ref.fingerprint ∧
    contains initialState ref.fingerprint = false ∧
    (delete (writeState s ref.fingerprint (.str d) di)
        ref).1.docMetaFile.deleted = true ∧
    (delete (writeState s ref.fingerprint (.str d) di)
        ref).1.dataFile.deleted = true := by
  have hc : contains (writeState s ref.fingerprint (.str d) di)
      ref.fingerprint = true := by
    rw [contains_writeState, if_pos rfl]
  refine ⟨?_, ?_, ?_, rfl, ?_, ?_⟩
  · by_cases h : contains s ref.fingerprint = true <;> simp [delete, h]
  · by_cases h : contains s ref.fingerprint = true <;> simp [delete, h]
  · by_cases h : contains s ref.fingerprint = true <;> simp [delete, h]
  · simp [delete, hc]
  · simp [delete, hc]

/-- C7: two `writeFile` calls with the same name under distinct backends store
under distinct keys and do not collide: each stored entry keeps its own
content and metadata, `getFile` under each backend returns its own
descriptor, and the later write leaves the other backend's entry unchanged. -/
theorem writeFile_backend_isolation (s : State) (A B : Backend) (x : String)
    (dA dB : FileWriteData) (mA mB : FileMeta) (h : A ≠ B) :
    toFileRefKey A ⟨some x⟩ ≠ toFileRefKey B ⟨some x⟩ ∧
    objLookup
        ((writeFile (writeFile s A ⟨some x⟩ dA mA).1 B ⟨some x⟩ dB mB).1).files
        (toFileRefKey A ⟨some x⟩)
      = some { buffer := dA.toBuffer, meta := mA } ∧
    objLookup
        ((writeFile (writeFile s A ⟨some x⟩ dA mA).1 B ⟨some x⟩ dB mB).1).files
        (toFileRefKey B ⟨some x⟩)
      = some { buffer := dB.toBuffer, meta := mB } ∧
    getFile (writeFile (writeFile s A ⟨some x⟩ dA mA).1 B ⟨some x⟩ dB mB).1
        A ⟨some x⟩
      = .ok (some { backend := A, ref := ⟨some x⟩, url := "FIXME:none",
                    meta := mA }) ∧
    getFile (writeFile (writeFile s A ⟨some x⟩ dA mA).1 B ⟨some x⟩ dB mB).1
        B ⟨some x⟩
      = .ok (some { backend := B, ref := ⟨some x⟩, url := "FIXME:none",
                    meta := mB }) ∧
    objLookup
        ((writeFile (writeFile s A ⟨some x⟩ dA mA).1 B ⟨some x⟩ dB mB).1).files
        (toFileRefKey A ⟨some x⟩)
      = objLookup ((writeFile s A ⟨some x⟩ dA mA).1).files
          (toFileRefKey A ⟨some x⟩) := by
  have hk := toFileRefKey_backend_ne (FileRef.mk (some x)) h
  have hA : objLookup
      ((writeFile (writeFile s A ⟨some x⟩ dA mA).1 B ⟨some x⟩ dB mB).1).files
      (toFileRefKey A ⟨some x⟩)
      = some { buffer := dA.toBuffer, meta := mA } := by
    rw [writeFile_files, objLookup_objInsert, if_neg hk, writeFile_files,
      objLookup_objInsert, if_pos rfl]
  have hB : objLookup
      ((writeFile (writeFile s A ⟨some x⟩ dA mA).1 B ⟨some x⟩ dB mB).1).files
      (toFileRefKey B ⟨some x⟩)
      = some { buffer := dB.toBuffer, meta := mB } := by
    rw [writeFile_files, objLookup_objInsert, if_pos rfl]
  refine ⟨hk, hA, hB, ?_, ?_, ?_⟩
  · rw [getFile_eq, hA]
  · rw [getFile_eq, hB]
  · rw [hA, writeFile_files, objLookup_objInsert, if_pos rfl]

/-- C7 witness: the theorem instantiated at the stash and files backends. -/
theorem writeFile_backend_isolation_witness :
    Backend.stash ≠ Backend.files ∧
    toFileRefKey .stash ⟨some "x"⟩ ≠ toFileRefKey .files ⟨some "x"⟩ :=
  ⟨by decide,
   (writeFile_backend_isolation initialState .stash .files "x" (.str "a")
      (.str "b") [] [] (by decide)).1⟩

/-- C8: counterexample — a malformed ref (`undefined` name) does not make the
file operations fail with an `InvalidKeyError`: `writeFile` succeeds and
silently stores under the very key of the well-formed ref named `undefined`,
overwriting its entry. -/
theorem malformed_ref_silently_collides :
    toFileRefKey .stash ⟨none⟩ = toFileRefKey .stash ⟨some "undefined"⟩ ∧
    objLookup ((writeFile (writeFile initialState .stash ⟨some "undefined"⟩
          (.str "good") []).1 .stash ⟨none⟩ (.str "evil") []).1).files
        (toFileRefKey .stash ⟨some "undefined"⟩)
      = some { buffer := .fromString "evil", meta := [] } :=
  ⟨rfl, rfl⟩

/-- C8 (amended): the key derivation is pure and total on every
`(backend, ref)` pair and injective in the name for a fixed backend, but a
malformed ref does not fail fast with an `InvalidKeyError`: its `undefined`
name is coerced to the text `undefined`, so its key coincides with the key of
the well-formed ref literally named `undefined`. -/
theorem toFileRefKey_total_no_invalid_key_error (b : Backend) (x y : String) :
    (toFileRefKey b ⟨some x⟩ = toFileRefKey b ⟨some y⟩ ↔ x = y) ∧
    toFileRefKey b ⟨none⟩ = toFileRefKey b ⟨some "undefined"⟩ :=
  ⟨toFileRefKey_name_inj b x y, rfl⟩

/-- C9: `delete` leaves the datastore state entirely unchanged: both the
document-metadata mapping and the file mapping are the same after the call,
every fingerprint reads back identically via `getDocMeta`, and the record
enumeration of `getDocMetaFiles` is identical. -/
theorem delete_state_unchanged (s : State) (ref : DocMetaFileRef) :
    (delete s ref).2 = s ∧
    ((delete s ref).2).docMetas = s.docMetas ∧
    ((delete s ref).2).files = s.files ∧
    (∀ f, getDocMeta (delete s ref).2 f = getDocMeta s f) ∧
    getDocMetaFiles (delete s ref).2 = getDocMetaFiles s :=
  ⟨rfl, rfl, rfl, fun _ => rfl, rfl⟩

/-- C10: when the ref's `docFile` field is absent, the `dataFile` path in the
delete result is the literal string `/undefined` — the slash concatenated
with the text form of `undefined` — rather than an absent path. -/
theorem delete_dataFile_path_undefined (s : State) (fingerprint : String) :
    (delete s ⟨fingerprint, none⟩).1.dataFile.path = "/undefined" := by
  by_cases h : contains s fingerprint = true <;> simp [delete, h, jsStr]

end MemoryDatastore
